import Mathlib

/-!
# F1 Sector Analysis — verification of the core analytics

Shallow embedding of the repository's core computations:

* `sector_analysis.py` — lap-table aggregation (`get_best_sector_times`,
  `get_average_sector_times`, `get_sector_speed_data`), the head-to-head
  comparator (`compare_two_drivers`) and the track-dominance engine
  (`get_track_dominance_data`);
* `app.py` — the pre-computed-data comparator (`api_compare`), the
  pre-computed dominance endpoint (`api_track_dominance`) and its `_pad`
  helper;
* `preprocess.py` — the telemetry-skip guard of `process_session`.

Numeric values are modelled as exact rationals (`ℚ`); Python `float`
arithmetic is idealised as exact arithmetic on ℚ.  Absent values
(JSON `null` / pandas `NaN` that the code tests with `is not None`)
are modelled as `Option ℚ`.  Driver and team identifiers are modelled
as naturals (only their equality and order matter to the code).
-/

namespace F1

/-! ## Python numeric helpers -/

/-- Python `int(q)` for a real number: truncation toward zero. -/
def pyTrunc (q : ℚ) : ℤ :=
  if 0 ≤ q then ⌊q⌋ else -⌊-q⌋

/-- Round to the nearest integer, ties to the even integer
(the rounding used by Python's built-in `round`). -/
def roundHalfEven (q : ℚ) : ℤ :=
  let f := ⌊q⌋
  if q - f < 1/2 then f
  else if 1/2 < q - f then f + 1
  else if f % 2 = 0 then f else f + 1

/-- Python `round(q, 3)`. -/
def round3 (q : ℚ) : ℚ := (roundHalfEven (q * 1000) : ℚ) / 1000

/-- Python `round(q, 1)`. -/
def round1 (q : ℚ) : ℚ := (roundHalfEven (q * 10) : ℚ) / 10

/-! ## List numeric helpers (pandas `min` / `mean` / `max` with NaN skipped) -/

/-- Minimum of a list (`none` on the empty list). -/
def listMin : List ℚ → Option ℚ
  | [] => none
  | x :: xs =>
    some (match listMin xs with
          | none => x
          | some m => min x m)

/-- Maximum of a list (`none` on the empty list); `Series.max()`. -/
def listMax : List ℚ → Option ℚ
  | [] => none
  | x :: xs =>
    some (match listMax xs with
          | none => x
          | some m => max x m)

/-- Arithmetic mean of a list (`none` on the empty list). -/
def listMean (xs : List ℚ) : Option ℚ :=
  match xs with
  | [] => none
  | _ => some (xs.sum / xs.length)

/-! ## Data model: lap records (`laps.json` rows / cleaned pandas rows) -/

/-- One accurate-lap record as written by `preprocess.py` into `laps.json`
and consumed by `app.py`: sector/speed/lap-time fields may be `null`. -/
structure Lap where
  driver : ℕ
  team : ℕ
  lapNumber : ℕ
  lapTime : Option ℚ
  sector1 : Option ℚ
  sector2 : Option ℚ
  sector3 : Option ℚ
  speedI1 : Option ℚ
  speedI2 : Option ℚ
  speedFL : Option ℚ
  speedST : Option ℚ
deriving DecidableEq

/-! ## Aggregator (`get_best_sector_times`, `get_average_sector_times`,
`get_sector_speed_data` in `sector_analysis.py`) -/

/-- The laps of one driver, in table order (`laps[laps["Driver"] == drv]`). -/
def driverLaps (laps : List Lap) (d : ℕ) : List Lap :=
  laps.filter (fun l => l.driver == d)

/-- The three sector columns `Sector1Time_sec`, `Sector2Time_sec`,
`Sector3Time_sec`. -/
def sectorCol (i : Fin 3) (l : Lap) : Option ℚ :=
  [l.sector1, l.sector2, l.sector3].getD i.val none

/-- The four speed columns `SpeedI1`, `SpeedI2`, `SpeedFL`, `SpeedST`. -/
def speedCol (j : Fin 4) (l : Lap) : Option ℚ :=
  [l.speedI1, l.speedI2, l.speedFL, l.speedST].getD j.val none

/-- The present (non-NaN) values of one sector column for one driver. -/
def sectorVals (laps : List Lap) (d : ℕ) (i : Fin 3) : List ℚ :=
  (driverLaps laps d).filterMap (sectorCol i)

/-- The present (non-NaN) values of one speed column for one driver. -/
def speedVals (laps : List Lap) (d : ℕ) (j : Fin 4) : List ℚ :=
  (driverLaps laps d).filterMap (speedCol j)

/-- Model of `groupby("Driver")[col].min()`: per-driver minimum, NaN skipped. -/
def bestOfSector (laps : List Lap) (d : ℕ) (i : Fin 3) : Option ℚ :=
  listMin (sectorVals laps d i)

/-- Model of `groupby("Driver")[col].mean()`: per-driver mean, NaN skipped. -/
def avgOfSector (laps : List Lap) (d : ℕ) (i : Fin 3) : Option ℚ :=
  listMean (sectorVals laps d i)

/-- One output row of the best/average sector-time tables.  `total` is the
row sum `best[sector_cols].sum(axis=1)` (pandas sums with `skipna=True`,
so an absent sector contributes 0). -/
structure AggRow where
  driver : ℕ
  s1 : Option ℚ
  s2 : Option ℚ
  s3 : Option ℚ
  total : ℚ
deriving DecidableEq

/-- One output row of the speed-trap table; `avg` is
`speeds[speed_cols].mean(axis=1)` (NaN-skipping row mean of the four
per-channel means). -/
structure SpeedRow where
  driver : ℕ
  avg : Option ℚ
deriving DecidableEq

/-- Model of `groupby("Driver")`: it iterates the distinct driver keys in ascending
order; modelled as sorting the deduplicated driver list.  -/
def sortedDrivers (laps : List Lap) : List ℕ :=
  List.insertionSort (· ≤ ·) (laps.map Lap.driver).dedup

/-- Row of `get_best_sector_times` for one driver. -/
def mkBestRow (laps : List Lap) (d : ℕ) : AggRow :=
  let b1 := bestOfSector laps d 0
  let b2 := bestOfSector laps d 1
  let b3 := bestOfSector laps d 2
  ⟨d, b1, b2, b3, b1.getD 0 + b2.getD 0 + b3.getD 0⟩

/-- Row of `get_average_sector_times` for one driver. -/
def mkAvgRow (laps : List Lap) (d : ℕ) : AggRow :=
  let a1 := avgOfSector laps d 0
  let a2 := avgOfSector laps d 1
  let a3 := avgOfSector laps d 2
  ⟨d, a1, a2, a3, a1.getD 0 + a2.getD 0 + a3.getD 0⟩

/-- Row of `get_sector_speed_data` for one driver. -/
def mkSpeedRow (laps : List Lap) (d : ℕ) : SpeedRow :=
  ⟨d, listMean (([listMean (speedVals laps d 0), listMean (speedVals laps d 1),
                  listMean (speedVals laps d 2), listMean (speedVals laps d 3)]).filterMap id)⟩

/-- Sort key of `sort_values("TotalBest")`. -/
def byTotal (a b : AggRow) : Prop := a.total ≤ b.total

instance : DecidableRel byTotal := fun a b =>
  inferInstanceAs (Decidable (a.total ≤ b.total))

instance : IsTotal AggRow byTotal := ⟨fun a b => le_total a.total b.total⟩

instance : IsTrans AggRow byTotal := ⟨fun _ _ _ h1 h2 => le_trans h1 h2⟩

/-- Sort key of `sort_values("AvgSpeed", ascending=False)` as a boolean:
descending on present values, NaN rows placed last. -/
def bySpeedB (a b : SpeedRow) : Bool :=
  match a.avg, b.avg with
  | some x, some y => decide (y ≤ x)
  | some _, none => true
  | none, some _ => false
  | none, none => true

/-- Sort relation of `sort_values("AvgSpeed", ascending=False)`. -/
def bySpeed (a b : SpeedRow) : Prop := bySpeedB a b = true

instance : DecidableRel bySpeed := fun a b =>
  inferInstanceAs (Decidable (_ = true))

instance : IsTotal SpeedRow bySpeed := by
  constructor
  intro a b
  cases ha : a.avg <;> cases hb : b.avg <;>
    simp [bySpeed, bySpeedB, ha, hb]
  exact le_total _ _

instance : IsTrans SpeedRow bySpeed := by
  constructor
  intro a b c h1 h2
  cases ha : a.avg <;> cases hb : b.avg <;> cases hc : c.avg <;>
    simp_all [bySpeed, bySpeedB] <;> linarith

/-- Everything pandas documents about `sort_values(by, kind='quicksort')`
(the default kind, used by the aggregation tables): the output is some
permutation of the input rows that is sorted by the key.  Quicksort is
documented as *not* stable, so the relative order of rows with equal
keys is unspecified — any sorted permutation is an admissible outcome. -/
def SortValuesAdmissible {α : Type} (r : α → α → Prop) (input output : List α) : Prop :=
  output.Perm input ∧ output.Pairwise r

/-- Model of `get_best_sector_times`: per-driver sector minima, row total, sorted
ascending by `TotalBest`.  The executable model picks insertion sort as
one admissible outcome of `sort_values` (see `SortValuesAdmissible`);
only key-sortedness, which holds for every admissible outcome, is
guaranteed by the code — the order of rows with equal totals is not. -/
def bestSectorTimes (laps : List Lap) : List AggRow :=
  List.insertionSort byTotal ((sortedDrivers laps).map (mkBestRow laps))

/-- Model of `get_average_sector_times`: per-driver sector means, row total, sorted
ascending by `TotalAvg` (same sort modelling as `bestSectorTimes`). -/
def averageSectorTimes (laps : List Lap) : List AggRow :=
  List.insertionSort byTotal ((sortedDrivers laps).map (mkAvgRow laps))

/-- Model of `get_sector_speed_data`: per-driver mean speed-trap readings, sorted
descending by `AvgSpeed` (same sort modelling as `bestSectorTimes`). -/
def speedTrapAverages (laps : List Lap) : List SpeedRow :=
  List.insertionSort bySpeed ((sortedDrivers laps).map (mkSpeedRow laps))

/-! ## Head-to-head comparator -/

/-- The decision encoded by the comparator's `faster` field.  The code
emits the first driver's abbreviation, the second driver's abbreviation,
`"TIE"` or `"N/A"`; the inductive records which of the four was chosen. -/
inductive Verdict where
  | drv1
  | drv2
  | tie
  | na
deriving DecidableEq

/-- Decision `d1 if delta < 0 else (d2 if delta > 0 else "TIE")` — the sector
convention (lower time wins). -/
def sectorVerdict (delta : ℚ) : Verdict :=
  if delta < 0 then .drv1 else if 0 < delta then .drv2 else .tie

/-- Decision `d1 if delta > 0 else (d2 if delta < 0 else "TIE")` — the speed-trap
convention (higher speed wins). -/
def speedVerdict (delta : ℚ) : Verdict :=
  if 0 < delta then .drv1 else if delta < 0 then .drv2 else .tie

/-- Decision `d1 if ot1 < ot2 else (d2 if ot2 < ot1 else "TIE")` — overall verdict
from total lap times. -/
def overallVerdict (t1 t2 : ℚ) : Verdict :=
  if t1 < t2 then .drv1 else if t2 < t1 then .drv2 else .tie

/-- One pandas lap row as used by `compare_two_drivers`
(`sector_analysis.py`); the fields the comparator reads, with all values
present. -/
structure RowQ where
  lapNumber : ℕ
  team : ℕ
  sector1 : ℚ
  sector2 : ℚ
  sector3 : ℚ
  speedI1 : ℚ
  speedI2 : ℚ
  speedFL : ℚ
  speedST : ℚ
  lapTime : ℚ
deriving DecidableEq

/-- One `sectors`/`speed_traps` entry of `compare_two_drivers`. -/
structure EntryQ where
  idx : ℕ
  time1 : ℚ
  time2 : ℚ
  delta : ℚ
  faster : Verdict
deriving DecidableEq

/-- Result of `compare_two_drivers` (the comparison payload). -/
structure CompQ where
  sectors : List EntryQ
  speed_traps : List EntryQ
  overall_delta : ℚ
  overall_faster : Verdict
deriving DecidableEq

/-- One sector entry of `compare_two_drivers`: `delta = t1 - t2`,
`faster` by the sector convention. -/
def mkEntryQ (i : ℕ) (t1 t2 : ℚ) : EntryQ :=
  ⟨i, t1, t2, t1 - t2, sectorVerdict (t1 - t2)⟩

/-- One speed-trap entry of `compare_two_drivers`: `delta = s1 - s2`,
`faster` by the speed convention. -/
def mkSpeedEntryQ (i : ℕ) (s1 s2 : ℚ) : EntryQ :=
  ⟨i, s1, s2, s1 - s2, speedVerdict (s1 - s2)⟩

/-- Model of `compare_two_drivers` (`sector_analysis.py` lines 238-278), given the
two already-selected lap rows. -/
def compareTwoDrivers (r1 r2 : RowQ) : CompQ where
  sectors := [mkEntryQ 1 r1.sector1 r2.sector1,
              mkEntryQ 2 r1.sector2 r2.sector2,
              mkEntryQ 3 r1.sector3 r2.sector3]
  speed_traps := [mkSpeedEntryQ 1 r1.speedI1 r2.speedI1,
                  mkSpeedEntryQ 2 r1.speedI2 r2.speedI2,
                  mkSpeedEntryQ 3 r1.speedFL r2.speedFL,
                  mkSpeedEntryQ 4 r1.speedST r2.speedST]
  overall_delta := r1.lapTime - r2.lapTime
  overall_faster := overallVerdict r1.lapTime r2.lapTime

/-- One `sectors`/`speed_traps` entry of `api_compare` (`app.py`), where
values may be absent. -/
structure EntryO where
  time1 : Option ℚ
  time2 : Option ℚ
  delta : Option ℚ
  faster : Verdict
deriving DecidableEq

/-- Result of `api_compare` (the comparison payload). -/
structure ApiComp where
  sectors : List EntryO
  speed_traps : List EntryO
  overall_delta : Option ℚ
  overall_faster : Verdict
deriving DecidableEq

/-- One sector entry of `api_compare`: if both values are present,
`delta = round(t1 - t2, 3)` and `faster` from that rounded delta;
otherwise `delta = None`, `faster = "N/A"`. -/
def mkSectorEntryO (t1 t2 : Option ℚ) : EntryO :=
  match t1, t2 with
  | some a, some b => ⟨t1, t2, some (round3 (a - b)), sectorVerdict (round3 (a - b))⟩
  | _, _ => ⟨t1, t2, none, .na⟩

/-- One speed-trap entry of `api_compare`: if both values are present,
`delta = round(s1 - s2, 1)` and `faster` from that rounded delta;
otherwise `delta = None`, `faster = "N/A"`. -/
def mkSpeedEntryO (s1 s2 : Option ℚ) : EntryO :=
  match s1, s2 with
  | some a, some b => ⟨s1, s2, some (round1 (a - b)), speedVerdict (round1 (a - b))⟩
  | _, _ => ⟨s1, s2, none, .na⟩

/-- Model of `api_compare` (`app.py` lines 228-298), given the two selected lap
records: the sector, speed-trap and overall comparison payload. -/
def apiCompare (r1 r2 : Lap) : ApiComp where
  sectors := [mkSectorEntryO r1.sector1 r2.sector1,
              mkSectorEntryO r1.sector2 r2.sector2,
              mkSectorEntryO r1.sector3 r2.sector3]
  speed_traps := [mkSpeedEntryO r1.speedI1 r2.speedI1,
                  mkSpeedEntryO r1.speedI2 r2.speedI2,
                  mkSpeedEntryO r1.speedFL r2.speedFL,
                  mkSpeedEntryO r1.speedST r2.speedST]
  overall_delta :=
    match r1.lapTime, r2.lapTime with
    | some a, some b => some (round3 (a - b))
    | _, _ => none
  overall_faster :=
    match r1.lapTime, r2.lapTime with
    | some a, some b => overallVerdict a b
    | _, _ => .na

/-! ## Personal-best lap selection in `api_compare` -/

/-- The Python sort key `l["lapTime"] or 999`: `or` substitutes 999 for
every falsy value, i.e. for `None` and for `0`. -/
def pyKey (l : Lap) : ℚ :=
  match l.lapTime with
  | none => 999
  | some t => if t = 0 then 999 else t

/-- Model of `min(d_laps, key=lambda l: l["lapTime"] or 999)` — Python `min`
returns the first element attaining the minimal key (`none` only on an
empty list, where Python would raise). -/
def selectBestLap : List Lap → Option Lap
  | [] => none
  | l :: ls => some (ls.foldl (fun acc x => if pyKey x < pyKey acc then x else acc) l)

/-- Following the claim's words (not the source): an absent (null) lap
time is treated as the sentinel 999 and every present value is used
as-is.  Used to compare the claim's selection rule with the code's. -/
def claimKey (l : Lap) : ℚ :=
  match l.lapTime with
  | none => 999
  | some t => t

/-! ## Track dominance engine (`sector_analysis.get_track_dominance_data`) -/

/-- Model of `np.linspace(a, b, n)`: `n` evenly spaced values from `a` to `b`
inclusive (`n = 0` gives `[]`, `n = 1` gives `[a]`). -/
def linspace (a b : ℚ) (n : ℕ) : List ℚ :=
  if n = 0 then []
  else if n = 1 then [a]
  else (List.range n).map fun i : ℕ => a + (b - a) * (i : ℚ) / ((n - 1 : ℕ) : ℚ)

/-- Interior/right part of `np.interp`: walk the (distance, value) pairs;
linear interpolation inside a segment, clamped to the last value past the
final sample. -/
def interpSeg (x : ℚ) : ℚ → ℚ → List (ℚ × ℚ) → ℚ
  | _, y0, [] => y0
  | x0, y0, (x1, y1) :: rest =>
    if x ≤ x1 then y0 + (y1 - y0) * (x - x0) / (x1 - x0)
    else interpSeg x x1 y1 rest

/-- Model of `np.interp(x, xp, fp)` at a single point, for the nonempty pair list
`p :: ps`: clamped to the first value before the first sample. -/
def interpAt (x : ℚ) (p : ℚ × ℚ) (ps : List (ℚ × ℚ)) : ℚ :=
  if x ≤ p.1 then p.2 else interpSeg x p.1 p.2 ps

/-- Model of `np.interp(ref, ds, vs)`: resample channel `vs` (sampled at distances
`ds`) onto the grid `ref`.  `none` models the `ValueError` numpy raises
on an empty sample array. -/
def resample (ds vs ref : List ℚ) : Option (List ℚ) :=
  match ds.zip vs with
  | [] => none
  | p :: ps => some (ref.map fun r => interpAt r p ps)

/-- Decision `np.where(s1 > s2, 1, np.where(s2 > s1, -1, 0))` at one point
(`app.py` writes the same decision as an if/elif/else chain). -/
def classify (a b : ℚ) : ℤ :=
  if b < a then 1 else if a < b then -1 else 0

/-- Pointwise dominance of two equally long resampled speed arrays. -/
def dominanceOf (s1 s2 : List ℚ) : List ℤ :=
  List.zipWith classify s1 s2

/-- One telemetry trace as `get_track_dominance_data` reads it: the
`Distance`, `X`, `Y`, `Speed` columns after `add_distance()`. -/
structure Tel2 where
  distance : List ℚ
  x : List ℚ
  y : List ℚ
  speed : List ℚ
deriving DecidableEq

/-- Output arrays of `get_track_dominance_data`. -/
structure Frame2 where
  x : List ℚ
  y : List ℚ
  speed1 : List ℚ
  speed2 : List ℚ
  dominance : List ℤ
deriving DecidableEq

/-- Model of `total_dist = min(tel1["Distance"].max(), tel2["Distance"].max())`. -/
def totalDist (t1 t2 : Tel2) : Option ℚ :=
  match listMax t1.distance, listMax t2.distance with
  | some a, some b => some (min a b)
  | _, _ => none

/-- Model of `ref_dist = np.linspace(0, total_dist, num_mini_sectors)`. -/
def refGrid (d : ℚ) (n : ℕ) : List ℚ :=
  linspace 0 d n

/-- Model of `get_track_dominance_data` (`sector_analysis.py` lines 285-354), from
the two selected laps' telemetry: resample both traces onto the shared
grid, average the coordinates, classify the speeds.  `none` models the
numpy error on empty telemetry; there is no other failure path. -/
def getTrackDominanceData (t1 t2 : Tel2) (n : ℕ) : Option Frame2 := do
  let d ← totalDist t1 t2
  let ref := refGrid d n
  let x1 ← resample t1.distance t1.x ref
  let y1 ← resample t1.distance t1.y ref
  let s1 ← resample t1.distance t1.speed ref
  let x2 ← resample t2.distance t2.x ref
  let y2 ← resample t2.distance t2.y ref
  let s2 ← resample t2.distance t2.speed ref
  some { x := List.zipWith (fun a b => (a + b) / 2) x1 x2,
         y := List.zipWith (fun a b => (a + b) / 2) y1 y2,
         speed1 := s1,
         speed2 := s2,
         dominance := dominanceOf s1 s2 }

/-- The guard of `process_session` (`preprocess.py` lines 260-261):
`if tel.empty or tel["Distance"].max() < 100: continue` — the lap's
telemetry file is skipped, no error is raised. -/
def shouldSkipTelemetry (ds : List ℚ) : Bool :=
  match listMax ds with
  | none => true
  | some m => decide (m < 100)

/-! ## Pre-computed dominance endpoint (`app.py api_track_dominance`) -/

/-- One pre-computed telemetry file as `api_track_dominance` reads it;
`tel.get(f, [])` turns a missing extra channel into `[]`. -/
structure Tel where
  lapNumber : ℕ
  distance : List ℚ
  x : List ℚ
  y : List ℚ
  speed : List ℚ
  gear : List ℚ
  drs : List ℚ
  rpm : List ℚ
  throttle : List ℚ
  brake : List ℚ
deriving DecidableEq

/-- Model of `_pad(arr, length)` (`app.py`): trim or zero-pad to exactly `len`
elements. -/
def pad (arr : List ℚ) (len : ℕ) : List ℚ :=
  if arr.isEmpty then List.replicate len 0
  else if len ≤ arr.length then arr.take len
  else arr ++ List.replicate (len - arr.length) 0

/-- Model of `int(count / total * 100) if total > 0 else 0`. -/
def dPct (c total : ℕ) : ℤ :=
  if 0 < total then pyTrunc ((c : ℚ) / (total : ℚ) * 100) else 0

/-- The response arrays of `api_track_dominance`. -/
structure Frame where
  x : List ℚ
  y : List ℚ
  dominance : List ℤ
  speed1 : List ℚ
  speed2 : List ℚ
  gear1 : List ℚ
  gear2 : List ℚ
  drs1 : List ℚ
  drs2 : List ℚ
  rpm1 : List ℚ
  rpm2 : List ℚ
  throttle1 : List ℚ
  throttle2 : List ℚ
  brake1 : List ℚ
  brake2 : List ℚ
  d1_pct : ℤ
  d2_pct : ℤ
deriving DecidableEq

/-- Model of `api_track_dominance` (`app.py` lines 352-427), from the two loaded
telemetry files: `n` is the minimum of the two speed and two x array
lengths; `none` models the `IndexError` Python would raise when a y
array is shorter than `n`. -/
def apiTrackDominance (t1 t2 : Tel) : Option Frame :=
  let s1 := t1.speed
  let s2 := t2.speed
  let n := min (min s1.length s2.length) (min t1.x.length t2.x.length)
  if n ≤ t1.y.length ∧ n ≤ t2.y.length then
    let dom := (List.range n).map fun i => classify (s1.getD i 0) (s2.getD i 0)
    some { x := (List.range n).map fun i => round1 ((t1.x.getD i 0 + t2.x.getD i 0) / 2),
           y := (List.range n).map fun i => round1 ((t1.y.getD i 0 + t2.y.getD i 0) / 2),
           dominance := dom,
           speed1 := s1.take n,
           speed2 := s2.take n,
           gear1 := pad t1.gear n,
           gear2 := pad t2.gear n,
           drs1 := pad t1.drs n,
           drs2 := pad t2.drs n,
           rpm1 := pad t1.rpm n,
           rpm2 := pad t2.rpm n,
           throttle1 := pad t1.throttle n,
           throttle2 := pad t2.throttle n,
           brake1 := pad t1.brake n,
           brake2 := pad t2.brake n,
           d1_pct := dPct (dom.count 1) dom.length,
           d2_pct := dPct (dom.count (-1)) dom.length }
  else none

/-- The length facts claimed for every `api_track_dominance` response:
all fifteen arrays have length `res`. -/
def FrameLens (fr : Frame) (res : ℕ) : Prop :=
  fr.x.length = res ∧ fr.y.length = res ∧ fr.dominance.length = res ∧
  fr.speed1.length = res ∧ fr.speed2.length = res ∧
  fr.gear1.length = res ∧ fr.gear2.length = res ∧
  fr.drs1.length = res ∧ fr.drs2.length = res ∧
  fr.rpm1.length = res ∧ fr.rpm2.length = res ∧
  fr.throttle1.length = res ∧ fr.throttle2.length = res ∧
  fr.brake1.length = res ∧ fr.brake2.length = res

/-! ## Concrete data used by witnesses and counterexamples -/

/-- Spec §8 scenario rows: sectors 30.0/30.0/30.123 vs 30.2/30.1/30.2. -/
def demoRow1 : RowQ := ⟨5, 1, 30, 30, 30123/1000, 300, 310, 280, 320, 90123/1000⟩

def demoRow2 : RowQ := ⟨9, 2, 302/10, 301/10, 302/10, 298, 309, 281, 318, 905/10⟩

/-- A lap record whose first sector time is absent. -/
def demoLapN1 : Lap := ⟨1, 1, 4, some (91), none, some 30, some 31, some 300, some 310, some 280, some 320⟩

def demoLapN2 : Lap := ⟨2, 2, 7, some (92), some 30, some 31, some 31, some 299, some 312, some 279, some 318⟩

/-- A lap whose stored lap time is 0 (falsy in Python). -/
def demoLapZ : Lap := ⟨1, 1, 1, some 0, none, none, none, none, none, none, none⟩

/-- A lap with stored lap time 50. -/
def demoLapF : Lap := ⟨1, 1, 2, some 50, none, none, none, none, none, none, none⟩

/-- A lap with an absent lap time. -/
def demoLapNone : Lap := ⟨1, 1, 3, none, none, none, none, none, none, none, none⟩

/-- A lap with lap time 1000 (at least the 999 sentinel). -/
def demoLapSlow : Lap := ⟨1, 1, 5, some 1000, none, none, none, none, none, none, none⟩

/-- A one-sample telemetry trace of total distance 0: fewer than 2
distance samples and total distance far below 100. -/
def badTel : Tel2 := ⟨[0], [0], [0], [100]⟩

/-- Telemetry trace of total distance 5000 (spec §8 scenario). -/
def telA5000 : Tel2 := ⟨[0, 5000], [0, 10], [0, 20], [100, 200]⟩

/-- Telemetry trace of total distance 4800 (spec §8 scenario). -/
def telB4800 : Tel2 := ⟨[0, 4800], [0, 11], [0, 21], [110, 190]⟩

/-- A pre-computed telemetry file with 2-point arrays and a 1-point gear
channel. -/
def telW1 : Tel := ⟨1, [0, 10], [0, 1], [0, 1], [100, 200], [3], [], [], [], []⟩

def telW2 : Tel := ⟨2, [0, 10], [0, 2], [0, 2], [110, 190], [], [], [], [], []⟩

/-- A lap table in which drivers 1 and 2 have equal total-best
(30+30+30 = 29+30+31 = 90). -/
def demoTieLaps : List Lap :=
  [⟨1, 1, 1, some 90, some 30, some 30, some 30, none, none, none, none⟩,
   ⟨2, 2, 1, some 90, some 29, some 30, some 31, none, none, none, none⟩]

/-- A small lap table: two drivers, two laps each. -/
def demoLaps : List Lap :=
  [⟨1, 1, 1, some 90, some 30, some 30, some 30, some 300, some 310, some 280, some 320⟩,
   ⟨1, 1, 2, some 92, some 31, some 30, some 31, some 298, some 308, some 278, some 318⟩,
   ⟨2, 2, 1, some 91, some 30, some 31, some 30, some 301, some 311, some 281, some 321⟩,
   ⟨2, 2, 2, some 93, some 32, some 30, some 31, some 299, some 309, some 279, some 319⟩]

/-! ## Helper lemmas: verdicts and classification -/

theorem sectorVerdict_iffs (d : ℚ) :
    (sectorVerdict d = .drv1 ↔ d < 0) ∧ (sectorVerdict d = .drv2 ↔ 0 < d) ∧
    (sectorVerdict d = .tie ↔ d = 0) := by
  unfold sectorVerdict
  split_ifs with h1 h2 <;> refine ⟨?_, ?_, ?_⟩ <;> simp_all <;> linarith

theorem speedVerdict_iffs (d : ℚ) :
    (speedVerdict d = .drv1 ↔ 0 < d) ∧ (speedVerdict d = .drv2 ↔ d < 0) ∧
    (speedVerdict d = .tie ↔ d = 0) := by
  unfold speedVerdict
  split_ifs with h1 h2 <;> refine ⟨?_, ?_, ?_⟩ <;> simp_all <;> linarith

theorem overallVerdict_iffs (t1 t2 : ℚ) :
    (overallVerdict t1 t2 = .drv1 ↔ t1 - t2 < 0) ∧
    (overallVerdict t1 t2 = .drv2 ↔ 0 < t1 - t2) ∧
    (overallVerdict t1 t2 = .tie ↔ t1 - t2 = 0) := by
  unfold overallVerdict
  split_ifs with h1 h2 <;> refine ⟨?_, ?_, ?_⟩ <;> simp_all <;> linarith

theorem classify_iffs (a b : ℚ) :
    (classify a b = 1 ↔ b < a) ∧ (classify a b = -1 ↔ a < b) ∧
    (classify a b = 0 ↔ a = b) ∧
    (classify a b = 1 ∨ classify a b = -1 ∨ classify a b = 0) := by
  unfold classify
  split_ifs with h1 h2 <;> refine ⟨?_, ?_, ?_, ?_⟩ <;> simp_all <;> linarith

theorem dominanceOf_getD :
    ∀ (s1 s2 : List ℚ) (i : ℕ), i < s1.length → i < s2.length →
      (dominanceOf s1 s2).getD i 0 = classify (s1.getD i 0) (s2.getD i 0)
  | [], _, i, h1, _ => by simp at h1
  | _ :: _, [], i, _, h2 => by simp at h2
  | a :: as, b :: bs, 0, _, _ => by simp [dominanceOf]
  | a :: as, b :: bs, i + 1, h1, h2 => by
    simp only [dominanceOf, List.zipWith_cons_cons, List.getD_cons_succ]
    exact dominanceOf_getD as bs i (by simpa using h1) (by simpa using h2)

/-! ## C1: pointwise dominance classification -/

/-- C1: at every grid point of a pair of resampled speed traces, the
dominance value is +1 exactly when `speed1 > speed2`, -1 exactly when
`speed2 > speed1`, 0 exactly when they are equal, and it is always one of
these three values. -/
theorem dominance_classification (s1 s2 : List ℚ) (i : ℕ)
    (h1 : i < s1.length) (h2 : i < s2.length) :
    ((dominanceOf s1 s2).getD i 0 = 1 ↔ s2.getD i 0 < s1.getD i 0) ∧
    ((dominanceOf s1 s2).getD i 0 = -1 ↔ s1.getD i 0 < s2.getD i 0) ∧
    ((dominanceOf s1 s2).getD i 0 = 0 ↔ s1.getD i 0 = s2.getD i 0) ∧
    ((dominanceOf s1 s2).getD i 0 = 1 ∨ (dominanceOf s1 s2).getD i 0 = -1 ∨
      (dominanceOf s1 s2).getD i 0 = 0) := by
  rw [dominanceOf_getD s1 s2 i h1 h2]
  exact classify_iffs _ _

/-- Witness for C1 at a concrete pair of speed arrays. -/
theorem dominance_classification_witness :
    ((dominanceOf [3, 1, 2] [1, 3, 2]).getD 0 0 = 1 ↔
      ([1, 3, 2] : List ℚ).getD 0 0 < ([3, 1, 2] : List ℚ).getD 0 0) ∧
    ((dominanceOf [3, 1, 2] [1, 3, 2]).getD 0 0 = -1 ↔
      ([3, 1, 2] : List ℚ).getD 0 0 < ([1, 3, 2] : List ℚ).getD 0 0) ∧
    ((dominanceOf [3, 1, 2] [1, 3, 2]).getD 0 0 = 0 ↔
      ([3, 1, 2] : List ℚ).getD 0 0 = ([1, 3, 2] : List ℚ).getD 0 0) ∧
    ((dominanceOf [3, 1, 2] [1, 3, 2]).getD 0 0 = 1 ∨
      (dominanceOf [3, 1, 2] [1, 3, 2]).getD 0 0 = -1 ∨
      (dominanceOf [3, 1, 2] [1, 3, 2]).getD 0 0 = 0) :=
  dominance_classification [3, 1, 2] [1, 3, 2] 0 (by decide) (by decide)

/-! ## C5: absent values in the pre-computed comparator -/

theorem mkSectorEntryO_absent (t1 t2 : Option ℚ) :
    (mkSectorEntryO t1 t2).time1 = none ∨ (mkSectorEntryO t1 t2).time2 = none →
      (mkSectorEntryO t1 t2).delta = none ∧ (mkSectorEntryO t1 t2).faster = .na := by
  cases t1 <;> cases t2 <;> simp [mkSectorEntryO]

theorem mkSpeedEntryO_absent (s1 s2 : Option ℚ) :
    (mkSpeedEntryO s1 s2).time1 = none ∨ (mkSpeedEntryO s1 s2).time2 = none →
      (mkSpeedEntryO s1 s2).delta = none ∧ (mkSpeedEntryO s1 s2).faster = .na := by
  cases s1 <;> cases s2 <;> simp [mkSpeedEntryO]

/-- C5: in `api_compare`, every sector or speed-trap entry with either
value absent gets `delta = None` and `faster = "N/A"`, and the comparison
still produces its full payload (3 sector entries, 4 speed-trap
entries) — absence is not an error. -/
theorem apiCompare_absent (r1 r2 : Lap) :
    (apiCompare r1 r2).sectors.length = 3 ∧
    (apiCompare r1 r2).speed_traps.length = 4 ∧
    (∀ e ∈ (apiCompare r1 r2).sectors,
      e.time1 = none ∨ e.time2 = none → e.delta = none ∧ e.faster = .na) ∧
    (∀ e ∈ (apiCompare r1 r2).speed_traps,
      e.time1 = none ∨ e.time2 = none → e.delta = none ∧ e.faster = .na) := by
  refine ⟨rfl, rfl, ?_, ?_⟩
  · intro e he
    simp only [apiCompare, List.mem_cons, List.not_mem_nil, or_false] at he
    rcases he with rfl | rfl | rfl <;> exact mkSectorEntryO_absent _ _
  · intro e he
    simp only [apiCompare, List.mem_cons, List.not_mem_nil, or_false] at he
    rcases he with rfl | rfl | rfl | rfl <;> exact mkSpeedEntryO_absent _ _

/-- Witness for C5: a pair of laps where the first driver's sector-1 time
is absent. -/
theorem apiCompare_absent_witness :
    (mkSectorEntryO demoLapN1.sector1 demoLapN2.sector1) ∈ (apiCompare demoLapN1 demoLapN2).sectors ∧
    (mkSectorEntryO demoLapN1.sector1 demoLapN2.sector1).time1 = none ∧
    (mkSectorEntryO demoLapN1.sector1 demoLapN2.sector1).delta = none ∧
    (mkSectorEntryO demoLapN1.sector1 demoLapN2.sector1).faster = .na := by
  have hmem : (mkSectorEntryO demoLapN1.sector1 demoLapN2.sector1) ∈ (apiCompare demoLapN1 demoLapN2).sectors := by
    simp [apiCompare]
  have h := (apiCompare_absent demoLapN1 demoLapN2).2.2.1 _ hmem (Or.inl (by decide))
  exact ⟨hmem, by decide, h.1, h.2⟩

/-! ## C6: comparator sign conventions -/

/-- C6: in `compare_two_drivers`, with all values present, each sector
entry's `faster` is driver 1 iff `delta < 0`, driver 2 iff `delta > 0`,
tie iff `delta = 0`; each speed-trap entry follows the inverted
convention; and the overall verdict follows the sector (lower-wins)
convention on total lap time. -/
theorem compareTwoDrivers_sign_convention (r1 r2 : RowQ) :
    (∀ e ∈ (compareTwoDrivers r1 r2).sectors,
      (e.faster = .drv1 ↔ e.delta < 0) ∧ (e.faster = .drv2 ↔ 0 < e.delta) ∧
      (e.faster = .tie ↔ e.delta = 0)) ∧
    (∀ e ∈ (compareTwoDrivers r1 r2).speed_traps,
      (e.faster = .drv1 ↔ 0 < e.delta) ∧ (e.faster = .drv2 ↔ e.delta < 0) ∧
      (e.faster = .tie ↔ e.delta = 0)) ∧
    (compareTwoDrivers r1 r2).overall_delta = r1.lapTime - r2.lapTime ∧
    ((compareTwoDrivers r1 r2).overall_faster = .drv1 ↔ (compareTwoDrivers r1 r2).overall_delta < 0) ∧
    ((compareTwoDrivers r1 r2).overall_faster = .drv2 ↔ 0 < (compareTwoDrivers r1 r2).overall_delta) ∧
    ((compareTwoDrivers r1 r2).overall_faster = .tie ↔ (compareTwoDrivers r1 r2).overall_delta = 0) := by
  refine ⟨?_, ?_, rfl, ?_, ?_, ?_⟩
  · intro e he
    simp only [compareTwoDrivers, List.mem_cons, List.not_mem_nil, or_false] at he
    rcases he with rfl | rfl | rfl <;> exact sectorVerdict_iffs _
  · intro e he
    simp only [compareTwoDrivers, List.mem_cons, List.not_mem_nil, or_false] at he
    rcases he with rfl | rfl | rfl | rfl <;> exact speedVerdict_iffs _
  · exact (overallVerdict_iffs r1.lapTime r2.lapTime).1
  · exact (overallVerdict_iffs r1.lapTime r2.lapTime).2.1
  · exact (overallVerdict_iffs r1.lapTime r2.lapTime).2.2

/-- Witness for C6 at the spec §8 scenario rows (driver 1 faster in
every sector and overall). -/
theorem compareTwoDrivers_sign_convention_witness :
    (mkEntryQ 1 demoRow1.sector1 demoRow2.sector1).faster = .drv1 ∧
    ((mkEntryQ 1 demoRow1.sector1 demoRow2.sector1).faster = .drv1 ↔
      (mkEntryQ 1 demoRow1.sector1 demoRow2.sector1).delta < 0) ∧
    ((compareTwoDrivers demoRow1 demoRow2).overall_faster = .drv1 ↔
      (compareTwoDrivers demoRow1 demoRow2).overall_delta < 0) := by
  have h := (compareTwoDrivers_sign_convention demoRow1 demoRow2).1
    (mkEntryQ 1 demoRow1.sector1 demoRow2.sector1) (by simp [compareTwoDrivers])
  refine ⟨?_, h.1, (compareTwoDrivers_sign_convention demoRow1 demoRow2).2.2.2.1⟩
  have hd : (mkEntryQ 1 demoRow1.sector1 demoRow2.sector1).delta < 0 := by
    norm_num [mkEntryQ, demoRow1, demoRow2]
  exact h.1.mpr hd

/-! ## C2: the shared reference grid -/

theorem linspace_of_two_le (a b : ℚ) {n : ℕ} (hn : 2 ≤ n) :
    linspace a b n
      = (List.range n).map fun i : ℕ => a + (b - a) * (i : ℚ) / ((n - 1 : ℕ) : ℚ) := by
  unfold linspace
  rw [if_neg (by omega), if_neg (by omega)]

theorem getD_map_range {f : ℕ → ℚ} {n i : ℕ} (h : i < n) :
    ((List.range n).map f).getD i 0 = f i := by
  rw [List.getD_eq_getElem?_getD, List.getElem?_map, List.getElem?_range h]
  rfl

/-- C2: the dominance engine's reference grid is `n` equally spaced
distances from 0 to `sharedDistance = min(totalA, totalB)` inclusive,
and no grid point exceeds either trace's own recorded distance range
(so interpolation never extrapolates). -/
theorem shared_grid_properties (t1 t2 : Tel2) (n : ℕ) (D1 D2 : ℚ)
    (h1 : listMax t1.distance = some D1) (h2 : listMax t2.distance = some D2)
    (hD1 : 0 ≤ D1) (hD2 : 0 ≤ D2) (hn : 2 ≤ n) :
    totalDist t1 t2 = some (min D1 D2) ∧
    (refGrid (min D1 D2) n).length = n ∧
    (0 : ℚ) ∈ refGrid (min D1 D2) n ∧
    min D1 D2 ∈ refGrid (min D1 D2) n ∧
    (∀ i : ℕ, i + 1 < n →
      (refGrid (min D1 D2) n).getD (i + 1) 0 - (refGrid (min D1 D2) n).getD i 0
        = min D1 D2 / ((n - 1 : ℕ) : ℚ)) ∧
    (∀ v ∈ refGrid (min D1 D2) n, 0 ≤ v ∧ v ≤ D1 ∧ v ≤ D2) := by
  set D := min D1 D2 with hDdef
  have hD0 : 0 ≤ D := le_min hD1 hD2
  have hc : (0 : ℚ) < ((n - 1 : ℕ) : ℚ) := by
    have : 0 < n - 1 := by omega
    exact_mod_cast this
  have hgrid : refGrid D n
      = (List.range n).map fun i : ℕ => 0 + (D - 0) * (i : ℚ) / ((n - 1 : ℕ) : ℚ) :=
    linspace_of_two_le 0 D hn
  refine ⟨?_, ?_, ?_, ?_, ?_, ?_⟩
  · unfold totalDist
    rw [h1, h2]
  · rw [hgrid]
    simp
  · rw [hgrid]
    refine List.mem_map.mpr ⟨0, List.mem_range.mpr ?_, ?_⟩
    · omega
    · simp
  · rw [hgrid]
    refine List.mem_map.mpr ⟨n - 1, List.mem_range.mpr ?_, ?_⟩
    · omega
    · rw [zero_add, sub_zero, mul_div_assoc, div_self (ne_of_gt hc), mul_one]
  · intro i hi
    rw [hgrid, getD_map_range hi, getD_map_range (by omega : i < n)]
    rw [zero_add, zero_add, sub_zero, div_sub_div_same]
    congr 1
    push_cast
    ring
  · intro v hv
    rw [hgrid] at hv
    obtain ⟨i, hi, rfl⟩ := List.mem_map.mp hv
    have hin : i < n := List.mem_range.mp hi
    have hic : (i : ℚ) ≤ ((n - 1 : ℕ) : ℚ) := by
      have : i ≤ n - 1 := by omega
      exact_mod_cast this
    have hv0 : (0 : ℚ) ≤ 0 + (D - 0) * i / ((n - 1 : ℕ) : ℚ) := by
      rw [zero_add, sub_zero]
      exact div_nonneg (mul_nonneg hD0 (by positivity)) hc.le
    have hvD : 0 + (D - 0) * i / ((n - 1 : ℕ) : ℚ) ≤ D := by
      rw [zero_add, sub_zero, div_le_iff hc]
      exact mul_le_mul_of_nonneg_left hic hD0
    exact ⟨hv0, le_trans hvD (min_le_left _ _), le_trans hvD (min_le_right _ _)⟩

/-- Witness for C2 at the spec §8 scenario: total distances 5000 and
4800, resolution 200. -/
theorem shared_grid_properties_witness :
    totalDist telA5000 telB4800 = some (min 5000 4800) ∧
    (refGrid (min 5000 4800) 200).length = 200 ∧
    (0 : ℚ) ∈ refGrid (min 5000 4800) 200 ∧
    min (5000 : ℚ) 4800 ∈ refGrid (min 5000 4800) 200 ∧
    (∀ i : ℕ, i + 1 < 200 →
      (refGrid (min 5000 4800) 200).getD (i + 1) 0 - (refGrid (min 5000 4800) 200).getD i 0
        = min (5000 : ℚ) 4800 / ((200 - 1 : ℕ) : ℚ)) ∧
    (∀ v ∈ refGrid (min 5000 4800) 200, 0 ≤ v ∧ v ≤ 5000 ∧ v ≤ 4800) :=
  shared_grid_properties telA5000 telB4800 200 5000 4800
    (by decide) (by decide) (by norm_num) (by norm_num) (by norm_num)

/-! ## C3: dominance percentages -/

theorem pyTrunc_of_nonneg {q : ℚ} (h : 0 ≤ q) : pyTrunc q = ⌊q⌋ := by
  unfold pyTrunc
  exact if_pos h

theorem count_one_add_count_neg_one_le (dom : List ℤ) :
    dom.count 1 + dom.count (-1) ≤ dom.length := by
  induction dom with
  | nil => simp
  | cons h t ih =>
    simp only [List.count_cons, List.length_cons, beq_iff_eq]
    split_ifs <;> omega

/-- C3: `d1_pct` and `d2_pct` are the counts of +1 and of -1 grid
points, each divided by the total point count, times 100, rounded down
to an integer (floor, i.e. natural-number division), and their sum never
exceeds 100. -/
theorem dominance_percentage_bound (dom : List ℤ) (h : 0 < dom.length) :
    dPct (dom.count 1) dom.length = ((dom.count 1 * 100) / dom.length : ℕ) ∧
    dPct (dom.count (-1)) dom.length = ((dom.count (-1) * 100) / dom.length : ℕ) ∧
    dPct (dom.count 1) dom.length + dPct (dom.count (-1)) dom.length ≤ 100 := by
  have hlen : (0 : ℚ) < (dom.length : ℚ) := by exact_mod_cast h
  have hform : ∀ c : ℕ, dPct c dom.length = ⌊(c : ℚ) / (dom.length : ℚ) * 100⌋ := by
    intro c
    unfold dPct
    rw [if_pos h]
    exact pyTrunc_of_nonneg (by positivity)
  have hdiv : ∀ c : ℕ, dPct c dom.length = ((c * 100 / dom.length : ℕ) : ℤ) := by
    intro c
    rw [hform c]
    have hx : (c : ℚ) / (dom.length : ℚ) * 100 = ((c * 100 : ℕ) : ℚ) / ((dom.length : ℕ) : ℚ) := by
      push_cast
      ring
    rw [hx, Rat.floor_natCast_div_natCast]
    push_cast
    rfl
  refine ⟨hdiv _, hdiv _, ?_⟩
  rw [hform, hform]
  have hc := count_one_add_count_neg_one_le dom
  set x := (dom.count 1 : ℚ) / (dom.length : ℚ) * 100 with hxdef
  set y := (dom.count (-1) : ℚ) / (dom.length : ℚ) * 100 with hydef
  have hxy : x + y ≤ 100 := by
    rw [hxdef, hydef, div_mul_eq_mul_div, div_mul_eq_mul_div, div_add_div_same,
        div_le_iff hlen]
    have hcq : (dom.count 1 : ℚ) + (dom.count (-1) : ℚ) ≤ (dom.length : ℚ) := by
      exact_mod_cast hc
    nlinarith
  have hfx : (⌊x⌋ : ℚ) ≤ x := Int.floor_le x
  have hfy : (⌊y⌋ : ℚ) ≤ y := Int.floor_le y
  have : ((⌊x⌋ + ⌊y⌋ : ℤ) : ℚ) ≤ 100 := by
    push_cast
    linarith
  exact_mod_cast this

/-- Witness for C3 at a concrete dominance array `[1, 1, -1, 0]`. -/
theorem dominance_percentage_bound_witness :
    dPct (([1, 1, -1, 0] : List ℤ).count 1) ([1, 1, -1, 0] : List ℤ).length
      = ((([1, 1, -1, 0] : List ℤ).count 1 * 100) / ([1, 1, -1, 0] : List ℤ).length : ℕ) ∧
    dPct (([1, 1, -1, 0] : List ℤ).count (-1)) ([1, 1, -1, 0] : List ℤ).length
      = ((([1, 1, -1, 0] : List ℤ).count (-1) * 100) / ([1, 1, -1, 0] : List ℤ).length : ℕ) ∧
    dPct (([1, 1, -1, 0] : List ℤ).count 1) ([1, 1, -1, 0] : List ℤ).length
      + dPct (([1, 1, -1, 0] : List ℤ).count (-1)) ([1, 1, -1, 0] : List ℤ).length ≤ 100 :=
  dominance_percentage_bound [1, 1, -1, 0] (by decide)

/-! ## C4: (non-)validation of sparse telemetry -/

theorem listMax_eq_none_iff (ds : List ℚ) : listMax ds = none ↔ ds = [] := by
  cases ds <;> simp [listMax]

theorem listMax_isSome_of_ne_nil {ds : List ℚ} (h : ds ≠ []) :
    ∃ m, listMax ds = some m := by
  cases ds with
  | nil => exact absurd rfl h
  | cons x xs => exact ⟨_, rfl⟩

theorem resample_isSome_of_ne_nil {ds vs : List ℚ} (hd : ds ≠ []) (hv : vs ≠ [])
    (ref : List ℚ) : ∃ out, resample ds vs ref = some out := by
  cases ds with
  | nil => exact absurd rfl hd
  | cons d ds' =>
    cases vs with
    | nil => exact absurd rfl hv
    | cons v vs' => exact ⟨_, rfl⟩

/-- Counterexample to C4: a trace with a single distance sample (fewer
than 2) whose total distance is 0 (far below the 100 threshold) is
accepted by `get_track_dominance_data`, which returns a full result
instead of failing with a `ValidationError`. -/
theorem no_validation_counterexample :
    badTel.distance.length < 2 ∧
    listMax badTel.distance = some 0 ∧ (0 : ℚ) < 100 ∧
    (getTrackDominanceData badTel badTel 200).isSome = true := by
  refine ⟨by decide, by decide, by norm_num, ?_⟩
  decide

/-- C4 amended: `get_track_dominance_data` performs no sparse-telemetry
validation at all — it returns a full result for any traces with at
least one sample in every channel; the only threshold in the repository
is `preprocess.py`'s guard, which silently skips a lap's telemetry file
exactly when the trace is empty or its maximum distance is below 100. -/
theorem no_validation_in_dominance :
    (∀ (t1 t2 : Tel2) (n : ℕ),
      t1.distance ≠ [] → t1.x ≠ [] → t1.y ≠ [] → t1.speed ≠ [] →
      t2.distance ≠ [] → t2.x ≠ [] → t2.y ≠ [] → t2.speed ≠ [] →
      (getTrackDominanceData t1 t2 n).isSome = true) ∧
    (∀ ds : List ℚ,
      shouldSkipTelemetry ds = true ↔ (ds = [] ∨ ∃ m, listMax ds = some m ∧ m < 100)) := by
  constructor
  · intro t1 t2 n hd1 hx1 hy1 hs1 hd2 hx2 hy2 hs2
    obtain ⟨m1, hm1⟩ := listMax_isSome_of_ne_nil hd1
    obtain ⟨m2, hm2⟩ := listMax_isSome_of_ne_nil hd2
    have htot : totalDist t1 t2 = some (min m1 m2) := by
      unfold totalDist
      rw [hm1, hm2]
    obtain ⟨ox1, hox1⟩ := resample_isSome_of_ne_nil hd1 hx1 (refGrid (min m1 m2) n)
    obtain ⟨oy1, hoy1⟩ := resample_isSome_of_ne_nil hd1 hy1 (refGrid (min m1 m2) n)
    obtain ⟨os1, hos1⟩ := resample_isSome_of_ne_nil hd1 hs1 (refGrid (min m1 m2) n)
    obtain ⟨ox2, hox2⟩ := resample_isSome_of_ne_nil hd2 hx2 (refGrid (min m1 m2) n)
    obtain ⟨oy2, hoy2⟩ := resample_isSome_of_ne_nil hd2 hy2 (refGrid (min m1 m2) n)
    obtain ⟨os2, hos2⟩ := resample_isSome_of_ne_nil hd2 hs2 (refGrid (min m1 m2) n)
    simp [getTrackDominanceData, htot, hox1, hoy1, hos1, hox2, hoy2, hos2]
  · intro ds
    cases hds : listMax ds with
    | none =>
      have : ds = [] := (listMax_eq_none_iff ds).mp hds
      subst this
      simp [shouldSkipTelemetry, listMax]
    | some m =>
      have hne : ds ≠ [] := by
        intro h
        rw [h] at hds
        simp [listMax] at hds
      simp [shouldSkipTelemetry, hds, hne]

/-- Witness for C4's amended statement at concrete inputs. -/
theorem no_validation_in_dominance_witness :
    (getTrackDominanceData telA5000 telB4800 5).isSome = true ∧
    (shouldSkipTelemetry [50] = true ↔
      ([50] : List ℚ) = [] ∨ ∃ m, listMax [50] = some m ∧ m < 100) := by
  constructor
  · exact no_validation_in_dominance.1 telA5000 telB4800 5
      (by decide) (by decide) (by decide) (by decide)
      (by decide) (by decide) (by decide) (by decide)
  · exact no_validation_in_dominance.2 [50]

/-! ## C7: fixed output lengths of `api_track_dominance` -/

theorem pad_length (arr : List ℚ) (len : ℕ) : (pad arr len).length = len := by
  unfold pad
  split_ifs with h1 h2
  · simp
  · simp only [List.length_take]
    omega
  · simp only [List.length_append, List.length_replicate]
    omega

theorem pad_of_short {arr : List ℚ} {len : ℕ} (h : arr.length ≤ len) :
    pad arr len = arr ++ List.replicate (len - arr.length) 0 := by
  unfold pad
  split_ifs with h1 h2
  · rw [List.isEmpty_iff.mp h1]
    simp
  · have hlen : arr.length = len := le_antisymm h h2
    subst hlen
    simp [List.take_length]
  · rfl

theorem pad_of_long {arr : List ℚ} {len : ℕ} (h : len ≤ arr.length) :
    pad arr len = arr.take len := by
  unfold pad
  split_ifs with h1
  · have ha : arr = [] := List.isEmpty_iff.mp h1
    subst ha
    simp at h
    subst h
    simp
  · rfl

/-- C7: for every dominance request whose two telemetry files carry the
standard `resolution`-length x/y/speed arrays, `api_track_dominance`
succeeds and every response array — x, y, dominance, speed1, speed2 and
all ten extra channel arrays — has length exactly `resolution`; extra
channels are right-padded with zeros when shorter and right-truncated
when longer. -/
theorem apiTrackDominance_lengths (t1 t2 : Tel) (res : ℕ)
    (hx1 : t1.x.length = res) (hy1 : t1.y.length = res) (hs1 : t1.speed.length = res)
    (hx2 : t2.x.length = res) (hy2 : t2.y.length = res) (hs2 : t2.speed.length = res) :
    ∃ fr, apiTrackDominance t1 t2 = some fr ∧ FrameLens fr res ∧
      fr.gear1 = pad t1.gear res ∧ fr.gear2 = pad t2.gear res ∧
      fr.drs1 = pad t1.drs res ∧ fr.drs2 = pad t2.drs res ∧
      fr.rpm1 = pad t1.rpm res ∧ fr.rpm2 = pad t2.rpm res ∧
      fr.throttle1 = pad t1.throttle res ∧ fr.throttle2 = pad t2.throttle res ∧
      fr.brake1 = pad t1.brake res ∧ fr.brake2 = pad t2.brake res ∧
      (∀ arr : List ℚ, arr.length ≤ res →
        pad arr res = arr ++ List.replicate (res - arr.length) 0) ∧
      (∀ arr : List ℚ, res ≤ arr.length → pad arr res = arr.take res) := by
  unfold apiTrackDominance
  simp only [hs1, hs2, hx1, hx2, hy1, hy2, min_self, le_refl, and_self, if_true]
  refine ⟨_, rfl, ?_, rfl, rfl, rfl, rfl, rfl, rfl, rfl, rfl, rfl, rfl,
    fun arr h => pad_of_short h, fun arr h => pad_of_long h⟩
  simp [FrameLens, pad_length, hs1, hs2]

/-- Witness for C7 at concrete telemetry files with resolution 2 (one
extra channel shorter than the resolution, the rest missing). -/
theorem apiTrackDominance_lengths_witness :
    ∃ fr, apiTrackDominance telW1 telW2 = some fr ∧ FrameLens fr 2 ∧
      fr.gear1 = pad telW1.gear 2 ∧ fr.gear2 = pad telW2.gear 2 ∧
      fr.drs1 = pad telW1.drs 2 ∧ fr.drs2 = pad telW2.drs 2 ∧
      fr.rpm1 = pad telW1.rpm 2 ∧ fr.rpm2 = pad telW2.rpm 2 ∧
      fr.throttle1 = pad telW1.throttle 2 ∧ fr.throttle2 = pad telW2.throttle 2 ∧
      fr.brake1 = pad telW1.brake 2 ∧ fr.brake2 = pad telW2.brake 2 ∧
      (∀ arr : List ℚ, arr.length ≤ 2 →
        pad arr 2 = arr ++ List.replicate (2 - arr.length) 0) ∧
      (∀ arr : List ℚ, 2 ≤ arr.length → pad arr 2 = arr.take 2) :=
  apiTrackDominance_lengths telW1 telW2 2 rfl rfl rfl rfl rfl rfl

/-! ## C8: per-driver best sector never exceeds average sector -/

theorem listMin_le_of_mem :
    ∀ {vs : List ℚ} {b : ℚ}, listMin vs = some b → ∀ v ∈ vs, b ≤ v := by
  intro vs
  induction vs with
  | nil => intro b hb; simp [listMin] at hb
  | cons x xs ih =>
    intro b hb v hv
    rw [listMin] at hb
    rcases List.mem_cons.mp hv with rfl | hv'
    · cases hxs : listMin xs with
      | none => rw [hxs] at hb; exact le_of_eq (Option.some_injective _ hb).symm
      | some m =>
        rw [hxs] at hb
        have : b = min v m := (Option.some_injective _ hb).symm
        rw [this]
        exact min_le_left _ _
    · cases hxs : listMin xs with
      | none =>
        cases xs with
        | nil => simp at hv'
        | cons y ys => simp [listMin] at hxs
      | some m =>
        rw [hxs] at hb
        have hb' : b = min x m := (Option.some_injective _ hb).symm
        have := ih hxs v hv'
        rw [hb']
        exact le_trans (min_le_right _ _) this

theorem length_mul_le_sum {vs : List ℚ} {b : ℚ} (h : ∀ v ∈ vs, b ≤ v) :
    (vs.length : ℚ) * b ≤ vs.sum := by
  induction vs with
  | nil => simp
  | cons x xs ih =>
    have hx : b ≤ x := h x (List.mem_cons_self x xs)
    have hxs : (xs.length : ℚ) * b ≤ xs.sum := ih fun v hv => h v (List.mem_cons_of_mem x hv)
    simp only [List.length_cons, List.sum_cons]
    push_cast
    nlinarith

/-- C8: for every lap table, driver and sector, when both the
best-sector aggregation (minimum over that driver's laps, absent values
skipped) and the average-sector aggregation (mean over the same values)
produce a value, the minimum is at most the mean. -/
theorem best_le_average (laps : List Lap) (d : ℕ) (i : Fin 3) (b a : ℚ)
    (hb : bestOfSector laps d i = some b) (ha : avgOfSector laps d i = some a) :
    b ≤ a := by
  unfold bestOfSector at hb
  unfold avgOfSector listMean at ha
  set vs := sectorVals laps d i with hvs
  cases hcase : vs with
  | nil => rw [hcase] at ha; simp at ha
  | cons w ws =>
    rw [hcase] at ha hb
    have ha' : a = (w :: ws).sum / ((w :: ws).length : ℚ) := by
      simp only at ha
      exact (Option.some_injective _ ha).symm
    have hlen : (0 : ℚ) < ((w :: ws).length : ℚ) := by
      have : 0 < (w :: ws).length := by simp
      exact_mod_cast this
    have hmem := listMin_le_of_mem hb
    have hsum := length_mul_le_sum hmem
    rw [ha', le_div_iff hlen]
    linarith [hsum]

/-- Witness for C8 at the concrete lap table `demoLaps`, driver 1,
sector 1. -/
theorem best_le_average_witness :
    bestOfSector demoLaps 1 0 = some 30 ∧ avgOfSector demoLaps 1 0 = some (61/2) ∧
    (30 : ℚ) ≤ 61/2 := by
  have hb : bestOfSector demoLaps 1 0 = some 30 := by
    norm_num [bestOfSector, listMin, sectorVals, driverLaps, demoLaps, sectorCol,
      List.filter, List.filterMap, min_def]
  have ha : avgOfSector demoLaps 1 0 = some (61/2) := by
    norm_num [avgOfSector, listMean, sectorVals, driverLaps, demoLaps, sectorCol,
      List.filter, List.filterMap]
  exact ⟨hb, ha, best_le_average demoLaps 1 0 30 (61/2) hb ha⟩

/-! ## C9: sorting invariants of the aggregation tables -/

/-- Counterexample to C9's tie-break: `sort_values("TotalBest")` uses
pandas' default `kind='quicksort'`, which is documented as not stable,
so on equal totals the code guarantees nothing beyond a sorted
permutation.  At the concrete table `demoTieLaps` (drivers 1 and 2 with
equal total-best 90), the output with driver 2 first is an admissible
`sort_values` outcome and violates the claimed driver-id order, so the
program does not guarantee the stable tie-break the claim asserts. -/
theorem tie_break_not_guaranteed :
    (mkBestRow demoTieLaps 1).total = (mkBestRow demoTieLaps 2).total ∧
    (mkBestRow demoTieLaps 1).driver = 1 ∧ (mkBestRow demoTieLaps 2).driver = 2 ∧
    SortValuesAdmissible byTotal ((sortedDrivers demoTieLaps).map (mkBestRow demoTieLaps))
      [mkBestRow demoTieLaps 2, mkBestRow demoTieLaps 1] ∧
    ¬ ([mkBestRow demoTieLaps 2, mkBestRow demoTieLaps 1].Pairwise
        (fun x y : AggRow => x.total = y.total → x.driver ≤ y.driver)) := by
  have heq : (mkBestRow demoTieLaps 1).total = (mkBestRow demoTieLaps 2).total := by
    norm_num [mkBestRow, bestOfSector, sectorVals, driverLaps, demoTieLaps, sectorCol,
      listMin, List.filter, List.filterMap]
  have hrows : (sortedDrivers demoTieLaps).map (mkBestRow demoTieLaps)
      = [mkBestRow demoTieLaps 1, mkBestRow demoTieLaps 2] := by
    have hd : sortedDrivers demoTieLaps = [1, 2] := by decide
    rw [hd]
    rfl
  refine ⟨heq, rfl, rfl, ⟨?_, ?_⟩, ?_⟩
  · rw [hrows]
    exact List.Perm.swap _ _ _
  · refine List.pairwise_cons.mpr ⟨?_, List.pairwise_singleton _ _⟩
    intro x hx
    have hx' : x = mkBestRow demoTieLaps 1 := by simpa using hx
    subst hx'
    exact le_of_eq heq.symm
  · intro h
    have := (List.pairwise_cons.mp h).1 (mkBestRow demoTieLaps 1)
      (List.mem_cons_self _ _) heq.symm
    simp [mkBestRow] at this

/-- C9 amended: the best-sector-times table is non-decreasing in
total-best and the speed-trap table is non-increasing in average speed
(rows with an absent average sort last); the executable model is an
admissible `sort_values` outcome (a sorted permutation of the groupby
rows).  The relative order of best rows with equal totals is left
unspecified by the code (pandas' default quicksort is not stable), so
no driver-id tie-break is guaranteed. -/
theorem aggregation_sorting_amended (laps : List Lap) :
    (bestSectorTimes laps).Pairwise (fun x y => x.total ≤ y.total) ∧
    SortValuesAdmissible byTotal ((sortedDrivers laps).map (mkBestRow laps))
      (bestSectorTimes laps) ∧
    (speedTrapAverages laps).Pairwise
      (fun x y => ∀ va vb, x.avg = some va → y.avg = some vb → vb ≤ va) := by
  refine ⟨List.sorted_insertionSort byTotal _,
    ⟨List.perm_insertionSort byTotal _, List.sorted_insertionSort byTotal _⟩, ?_⟩
  have h := List.sorted_insertionSort bySpeed ((sortedDrivers laps).map (mkSpeedRow laps))
  refine h.imp ?_
  intro a b hab va vb hva hvb
  unfold bySpeed bySpeedB at hab
  rw [hva, hvb] at hab
  simpa using hab

/-- Witness for C9's amended statement at the concrete lap table
`demoLaps`. -/
theorem aggregation_sorting_amended_witness :
    (bestSectorTimes demoLaps).Pairwise (fun x y => x.total ≤ y.total) ∧
    SortValuesAdmissible byTotal ((sortedDrivers demoLaps).map (mkBestRow demoLaps))
      (bestSectorTimes demoLaps) ∧
    (speedTrapAverages demoLaps).Pairwise
      (fun x y => ∀ va vb, x.avg = some va → y.avg = some vb → vb ≤ va) :=
  aggregation_sorting_amended demoLaps

/-! ## C10: personal-best lap selection in `api_compare` -/

theorem selectBestLap_foldl (ls : List Lap) :
    ∀ acc : Lap,
      pyKey (ls.foldl (fun acc x => if pyKey x < pyKey acc then x else acc) acc) ≤ pyKey acc ∧
      (∀ x ∈ ls,
        pyKey (ls.foldl (fun acc x => if pyKey x < pyKey acc then x else acc) acc) ≤ pyKey x) ∧
      (ls.foldl (fun acc x => if pyKey x < pyKey acc then x else acc) acc = acc ∨
        ls.foldl (fun acc x => if pyKey x < pyKey acc then x else acc) acc ∈ ls) := by
  induction ls with
  | nil =>
    intro acc
    exact ⟨le_refl _, by simp, Or.inl rfl⟩
  | cons y ys ih =>
    intro acc
    simp only [List.foldl_cons]
    set acc' := if pyKey y < pyKey acc then y else acc with hacc'
    have h := ih acc'
    have hle : pyKey acc' ≤ pyKey acc := by
      rw [hacc']
      split_ifs with hlt
      · exact le_of_lt hlt
      · exact le_refl _
    have hy : pyKey acc' ≤ pyKey y := by
      rw [hacc']
      split_ifs with hlt
      · exact le_refl _
      · exact le_of_not_lt hlt
    refine ⟨le_trans h.1 hle, ?_, ?_⟩
    · intro x hx
      rcases List.mem_cons.mp hx with rfl | hx'
      · exact le_trans h.1 hy
      · exact h.2.1 x hx'
    · rcases h.2.2 with heq | hmem
      · rw [heq, hacc']
        split_ifs with hlt
        · exact Or.inr (List.mem_cons_self _ _)
        · exact Or.inl rfl
      · exact Or.inr (List.mem_cons_of_mem y hmem)

theorem selectBestLap_foldl_const (ls : List Lap) :
    ∀ acc : Lap, (∀ x ∈ ls, pyKey acc ≤ pyKey x) →
      ls.foldl (fun acc x => if pyKey x < pyKey acc then x else acc) acc = acc := by
  induction ls with
  | nil =>
    intro acc _
    rfl
  | cons y ys ih =>
    intro acc h
    simp only [List.foldl_cons]
    rw [if_neg (not_lt.mpr (h y (List.mem_cons_self y ys)))]
    exact ih acc (fun x hx => h x (List.mem_cons_of_mem y hx))

/-- Counterexample to C10: the Python key `l["lapTime"] or 999` also maps
a present lap time of 0 (falsy) to the sentinel, so with laps
`[time 0, time 50]` the code selects the 50-second lap even though the
claim's rule (only absent mapped to 999) uniquely selects the 0-second
lap. -/
theorem personal_best_zero_counterexample :
    selectBestLap [demoLapZ, demoLapF] = some demoLapF ∧
    claimKey demoLapZ < claimKey demoLapF ∧
    demoLapZ ≠ demoLapF := by
  refine ⟨?_, ?_, ?_⟩
  · norm_num [selectBestLap, pyKey, demoLapZ, demoLapF]
  · norm_num [claimKey, demoLapZ, demoLapF]
  · decide

/-- C10 amended: the selected lap is one of the driver's laps minimizing
the stored lap time with an absent (null) *or zero* lap time treated as
the sentinel 999 (Python `or` falsiness); selection never fails for a
non-empty lap list; and a lap with absent lap time is selected when it
comes first and every lap time is absent or at least 999 seconds. -/
theorem personal_best_selection :
    (∀ laps : List Lap, laps ≠ [] → (selectBestLap laps).isSome = true) ∧
    (∀ (laps : List Lap) (l : Lap), selectBestLap laps = some l →
      l ∈ laps ∧ ∀ x ∈ laps, pyKey l ≤ pyKey x) ∧
    (∀ (l0 : Lap) (ls : List Lap), l0.lapTime = none →
      (∀ x ∈ l0 :: ls, x.lapTime = none ∨ ∃ t, x.lapTime = some t ∧ 999 ≤ t) →
      selectBestLap (l0 :: ls) = some l0) := by
  refine ⟨?_, ?_, ?_⟩
  · intro laps h
    cases laps with
    | nil => exact absurd rfl h
    | cons y ys => rfl
  · intro laps l hl
    cases laps with
    | nil => simp [selectBestLap] at hl
    | cons y ys =>
      rw [selectBestLap] at hl
      have hsel := (Option.some_injective _ hl).symm
      have h := selectBestLap_foldl ys y
      subst hsel
      refine ⟨?_, ?_⟩
      · rcases h.2.2 with heq | hmem
        · rw [heq]
          exact List.mem_cons_self _ _
        · exact List.mem_cons_of_mem y hmem
      · intro x hx
        rcases List.mem_cons.mp hx with rfl | hx'
        · exact h.1
        · exact h.2.1 x hx'
  · intro l0 ls h0 hall
    have hkey0 : pyKey l0 = 999 := by
      simp [pyKey, h0]
    rw [selectBestLap]
    rw [selectBestLap_foldl_const ls l0 ?_]
    intro x hx
    rcases hall x (List.mem_cons_of_mem l0 hx) with hnone | ⟨t, ht, hget⟩
    · rw [hkey0]
      simp [pyKey, hnone]
    · have htz : t ≠ 0 := by
        intro hz
        rw [hz] at hget
        norm_num at hget
      rw [hkey0]
      simp only [pyKey, ht, if_neg htz]
      exact hget

/-- Witness for C10's amended statement at concrete lap lists. -/
theorem personal_best_selection_witness :
    (selectBestLap [demoLapF]).isSome = true ∧
    selectBestLap (demoLapNone :: [demoLapSlow]) = some demoLapNone := by
  constructor
  · exact personal_best_selection.1 [demoLapF] (by simp)
  · refine personal_best_selection.2.2 demoLapNone [demoLapSlow] rfl ?_
    intro x hx
    rcases List.mem_cons.mp hx with rfl | hx'
    · exact Or.inl rfl
    · have : x = demoLapSlow := by simpa using hx'
      subst this
      exact Or.inr ⟨1000, rfl, by norm_num⟩

end F1
